import Mathlib

/-!
Verification of the demographic-data core of the lookit-api repository
(src/accounts/models.py): the enumeration catalogs of `DemographicData`,
the display projection `to_display`, and the versioned record store
described by the specification.

Machine integers are modelled as `Nat`; instants are modelled abstractly
as a discrete clock (`Nat`).  Strings are Lean strings.
-/

namespace Lookit

/-- A choice catalog: an ordered list of (code, label) pairs, as a Django
`choices` tuple. -/
abbrev Choices := List (String × String)

/-- DemographicData.RACE_CHOICES from src/accounts/models.py. -/
def RACE_CHOICES : Choices :=
  [("white", "White"),
   ("hisp", "Hispanic, Latino, or Spanish origin"),
   ("black", "Black or African American"),
   ("asian", "Asian"),
   ("native", "American Indian or Alaska Native"),
   ("mideast-naf", "Middle Eastern or North African"),
   ("hawaiian-pac-isl", "Native Hawaiian or Other Pacific Islander"),
   ("other", "Another race, ethnicity, or origin")]

/-- DemographicData.GENDER_CHOICES from src/accounts/models.py. -/
def GENDER_CHOICES : Choices :=
  [("m", "male"),
   ("f", "female"),
   ("o", "other"),
   ("na", "prefer not to answer")]

/-- DemographicData.EDUCATION_CHOICES from src/accounts/models.py. -/
def EDUCATION_CHOICES : Choices :=
  [("some", "some or attending high school"),
   ("hs", "high school diploma or GED"),
   ("col", "some or attending college"),
   ("assoc", "2-year college degree"),
   ("bach", "4-year college degree"),
   ("grad", "some or attending graduate or professional school"),
   ("prof", "graduate or professional degree")]

/-- DemographicData.SPOUSE_EDUCATION_CHOICES from src/accounts/models.py. -/
def SPOUSE_EDUCATION_CHOICES : Choices :=
  [("some", "some or attending high school"),
   ("hs", "high school diploma or GED"),
   ("col", "some or attending college"),
   ("assoc", "2-year college degree"),
   ("bach", "4-year college degree"),
   ("grad", "some or attending graduate or professional school"),
   ("prof", "graduate or professional degree"),
   ("na", "not applicable - no spouse or partner")]

/-- DemographicData.NO_CHILDREN_CHOICES from src/accounts/models.py. -/
def NO_CHILDREN_CHOICES : Choices :=
  [("0", "0"), ("1", "1"), ("2", "2"), ("3", "3"), ("4", "4"), ("5", "5"),
   ("6", "6"), ("7", "7"), ("8", "8"), ("9", "9"), ("10", "10"),
   (">10", "More than 10")]

/-- DemographicData.AGE_CHOICES from src/accounts/models.py.  Note the
pair whose code is 45-59 but whose label is 45-49, reproduced verbatim. -/
def AGE_CHOICES : Choices :=
  [("<18", "under 18"),
   ("18-21", "18-21"),
   ("22-24", "22-24"),
   ("25-29", "25-29"),
   ("30-34", "30-34"),
   ("35-39", "35-39"),
   ("40-44", "40-44"),
   ("45-59", "45-49"),
   ("50s", "50-59"),
   ("60s", "60-69"),
   (">70", "70 or over")]

/-- DemographicData.GUARDIAN_CHOICES from src/accounts/models.py. -/
def GUARDIAN_CHOICES : Choices :=
  [("1", "1"), ("2", "2"), ("3>", "3 or more"), ("varies", "varies")]

/-- DemographicData.INCOME_CHOICES from src/accounts/models.py. -/
def INCOME_CHOICES : Choices :=
  [("0", "0"), ("5000", "5000"), ("10000", "10000"), ("15000", "15000"),
   ("20000", "20000"), ("30000", "30000"), ("40000", "40000"),
   ("50000", "50000"), ("60000", "60000"), ("70000", "70000"),
   ("80000", "80000"), ("90000", "90000"), ("100000", "100000"),
   ("110000", "110000"), ("120000", "120000"), ("130000", "130000"),
   ("140000", "140000"), ("150000", "150000"), ("160000", "160000"),
   ("170000", "170000"), ("180000", "180000"), ("190000", "190000"),
   (">200000", "over 200000"),
   ("na", "prefer not to answer")]

/-- DemographicData.DENSITY_CHOICES from src/accounts/models.py. -/
def DENSITY_CHOICES : Choices :=
  [("urban", "urban"), ("suburban", "suburban"), ("rural", "rural")]

/-- US state choices supplied by the external django-localflavor library
(USPS_CHOICES).  Library data, reproduced for completeness of the `state`
field; its exact contents are not load-bearing for any property proved
below. -/
def USPS_CHOICES : Choices :=
  [("AL", "Alabama"), ("AK", "Alaska"), ("AS", "American Samoa"),
   ("AZ", "Arizona"), ("AR", "Arkansas"), ("AA", "Armed Forces Americas"),
   ("AE", "Armed Forces Europe"), ("AP", "Armed Forces Pacific"),
   ("CA", "California"), ("CO", "Colorado"), ("CT", "Connecticut"),
   ("DE", "Delaware"), ("DC", "District of Columbia"),
   ("FM", "Federated States of Micronesia"), ("FL", "Florida"),
   ("GA", "Georgia"), ("GU", "Guam"), ("HI", "Hawaii"), ("ID", "Idaho"),
   ("IL", "Illinois"), ("IN", "Indiana"), ("IA", "Iowa"),
   ("KS", "Kansas"), ("KY", "Kentucky"), ("LA", "Louisiana"),
   ("ME", "Maine"), ("MH", "Marshall Islands"), ("MD", "Maryland"),
   ("MA", "Massachusetts"), ("MI", "Michigan"), ("MN", "Minnesota"),
   ("MS", "Mississippi"), ("MO", "Missouri"), ("MT", "Montana"),
   ("NE", "Nebraska"), ("NV", "Nevada"), ("NH", "New Hampshire"),
   ("NJ", "New Jersey"), ("NM", "New Mexico"), ("NY", "New York"),
   ("NC", "North Carolina"), ("ND", "North Dakota"),
   ("MP", "Northern Mariana Islands"), ("OH", "Ohio"),
   ("OK", "Oklahoma"), ("OR", "Oregon"), ("PW", "Palau"),
   ("PA", "Pennsylvania"), ("PR", "Puerto Rico"), ("RI", "Rhode Island"),
   ("SC", "South Carolina"), ("SD", "South Dakota"), ("TN", "Tennessee"),
   ("TX", "Texas"), ("UT", "Utah"), ("VT", "Vermont"),
   ("VI", "Virgin Islands"), ("VA", "Virginia"), ("WA", "Washington"),
   ("WV", "West Virginia"), ("WI", "Wisconsin"), ("WY", "Wyoming")]

/-- The choices of the `state` field: ('XX', 'Select a State') prepended to
the USPS list, as in src/accounts/models.py. -/
def STATE_CHOICES : Choices := ("XX", "Select a State") :: USPS_CHOICES

/-- Semantics of the Django-generated accessor get_FIELD_display used by
DemographicData.to_display: the label from the catalog when the stored
value is one of its codes, otherwise the raw stored value itself
(dict(choices).get(value, value)). -/
def getFieldDisplay (choices : Choices) (value : String) : String :=
  match choices.lookup value with
  | some label => label
  | none => value

/-- A calendar date (datetime.date): year, month, day. -/
structure PDate where
  year : Nat
  month : Nat
  day : Nat
deriving DecidableEq, Inhabited

/-- Left-pad the decimal rendering of a number with zeros to a width. -/
def padNum (w : Nat) (n : Nat) : String :=
  let s := toString n
  String.mk (List.replicate (w - s.length) '0') ++ s

/-- date.isoformat(): YYYY-MM-DD. -/
def PDate.isoformat (d : PDate) : String :=
  padNum 4 d.year ++ "-" ++ padNum 2 d.month ++ "-" ++ padNum 2 d.day

/-- One hexadecimal digit character (lowercase). -/
def hexDigit (n : Nat) : Char :=
  if n < 10 then Char.ofNat (48 + n) else Char.ofNat (97 + (n - 10))

/-- The low k hexadecimal digits of a number, most significant first. -/
def toHexAux : Nat → Nat → List Char
  | _, 0 => []
  | n, k + 1 => toHexAux (n / 16) k ++ [hexDigit (n % 16)]

/-- uuid.UUID.hex: the 32 lowercase hexadecimal digits of the 128-bit
UUID value. -/
def uuidHex (u : Nat) : String := String.mk (toHexAux u 32)

/-- The abstract rendering of a creation instant (datetime.isoformat on
the abstract clock). -/
def datetimeIso (t : Nat) : String := toString t

/-- The accounts.models.User identity anchor: `pk` is the internal
database primary key, `uuid` the stable external identifier
(a 128-bit value). -/
structure User where
  pk : Nat
  uuid : Nat
  username : String
  given_name : String
  middle_name : String
  family_name : String
deriving DecidableEq, Inhabited

/-- The content fields of one DemographicData submission
(src/accounts/models.py lines 261-277).  The `extra` JSON blob is opaque
to the projector and modelled as an optional opaque value. -/
structure Fields where
  number_of_children : String
  child_birthdays : List PDate
  languages_spoken_at_home : String
  number_of_guardians : String
  number_of_guardians_explanation : String
  race_identification : String
  age : String
  gender : String
  education_level : String
  spouse_education_level : String
  annual_income : String
  number_of_books : Int
  additional_comments : String
  country : String
  state : String
  density : String
  extra : Option String
deriving DecidableEq, Inhabited

/-- One stored DemographicData record: internal primary key, owning user,
creation instant, optional reference to the previous record (by primary
key), and the content fields. -/
structure DemographicData extends Fields where
  pk : Nat
  user : User
  created_at : Nat
  previous : Option Nat
deriving DecidableEq, Inhabited

/-- A value of the display mapping produced by to_display: a rendered
string, a list of rendered date strings, an integer, or the opaque
extension blob. -/
inductive DisplayValue where
  | str (s : String)
  | strList (l : List String)
  | int (n : Int)
  | optStr (o : Option String)
deriving DecidableEq

/-- DemographicData.to_display from src/accounts/models.py: the flat
display-ready mapping, with every coded field resolved through its
catalog by the Django display accessor. -/
def DemographicData.to_display (d : DemographicData) : List (String × DisplayValue) :=
  [("user", DisplayValue.str (uuidHex d.user.uuid)),
   ("created_at", DisplayValue.str (datetimeIso d.created_at)),
   ("number_of_children", DisplayValue.str (getFieldDisplay NO_CHILDREN_CHOICES d.number_of_children)),
   ("child_birthdays", DisplayValue.strList (d.child_birthdays.map PDate.isoformat)),
   ("languages_spoken_at_home", DisplayValue.str d.languages_spoken_at_home),
   ("number_of_guardians", DisplayValue.str (getFieldDisplay GUARDIAN_CHOICES d.number_of_guardians)),
   ("number_of_guardians_explanation", DisplayValue.str d.number_of_guardians_explanation),
   ("race_identification", DisplayValue.str (getFieldDisplay RACE_CHOICES d.race_identification)),
   ("age", DisplayValue.str (getFieldDisplay AGE_CHOICES d.age)),
   ("gender", DisplayValue.str (getFieldDisplay GENDER_CHOICES d.gender)),
   ("education_level", DisplayValue.str (getFieldDisplay EDUCATION_CHOICES d.education_level)),
   ("spouse_education_level", DisplayValue.str (getFieldDisplay SPOUSE_EDUCATION_CHOICES d.spouse_education_level)),
   ("annual_income", DisplayValue.str (getFieldDisplay INCOME_CHOICES d.annual_income)),
   ("number_of_books", DisplayValue.int d.number_of_books),
   ("additional_comments", DisplayValue.str d.additional_comments),
   ("country", DisplayValue.str d.country),
   ("state", DisplayValue.str (getFieldDisplay STATE_CHOICES d.state)),
   ("density", DisplayValue.str (getFieldDisplay DENSITY_CHOICES d.density)),
   ("extra", DisplayValue.optStr d.extra)]

/-- Errors of the record store and traversal, per the specification:
InvalidFieldValue (with the offending field and value), NotFound,
BrokenChain. -/
inductive StoreError where
  | InvalidFieldValue (field : String) (value : String)
  | NotFound
  | BrokenChain
deriving DecidableEq

/-- The coded fields of a submission paired with their catalogs, in
declaration order of the model. -/
def codedFields (f : Fields) : List (String × Choices × String) :=
  [("number_of_children", NO_CHILDREN_CHOICES, f.number_of_children),
   ("number_of_guardians", GUARDIAN_CHOICES, f.number_of_guardians),
   ("race_identification", RACE_CHOICES, f.race_identification),
   ("age", AGE_CHOICES, f.age),
   ("gender", GENDER_CHOICES, f.gender),
   ("education_level", EDUCATION_CHOICES, f.education_level),
   ("spouse_education_level", SPOUSE_EDUCATION_CHOICES, f.spouse_education_level),
   ("annual_income", INCOME_CHOICES, f.annual_income),
   ("density", DENSITY_CHOICES, f.density)]

/-- Check a list of (field, catalog, value) triples, failing with
InvalidFieldValue on the first value that is not a code of its catalog. -/
def validateList : List (String × Choices × String) → Except StoreError Unit
  | [] => Except.ok ()
  | (n, c, v) :: rest =>
    if (c.lookup v).isSome then validateList rest
    else Except.error (StoreError.InvalidFieldValue n v)

/-- Modelled from the spec: validation of every coded field of a
submission against its Enumeration Catalog (section 4.2 of the spec; the
repository performs this only in its presentation layer, which is not
part of src/). -/
def validateFields (f : Fields) : Except StoreError Unit :=
  validateList (codedFields f)

/-- Modelled from the spec: the Record Store state — the persisted
records, the next fresh primary key, and a discrete clock from which
created_at instants are assigned monotonically. -/
structure StoreState where
  records : List DemographicData
  nextPk : Nat
  clock : Nat
deriving DecidableEq

/-- The empty store. -/
def emptyStore : StoreState := { records := [], nextPk := 0, clock := 0 }

/-- Lookup of a record by primary key. -/
def getRecord (st : StoreState) (pk : Nat) : Option DemographicData :=
  st.records.find? (fun r => r.pk == pk)

/-- Modelled from the spec: create(owner, fields, previous) — validates
every coded field against its catalog (failing with InvalidFieldValue and
persisting nothing), assigns created_at from the clock, persists the
record and returns its identity. -/
def create (st : StoreState) (owner : User) (f : Fields) (previous : Option Nat) :
    Except StoreError (StoreState × Nat) :=
  match validateFields f with
  | Except.error e => Except.error e
  | Except.ok _ =>
    let r : DemographicData :=
      { toFields := f, pk := st.nextPk, user := owner,
        created_at := st.clock, previous := previous }
    Except.ok ({ records := st.records ++ [r], nextPk := st.nextPk + 1,
                 clock := st.clock + 1 }, st.nextPk)

/-- Modelled from the spec: latest_for(owner) — the most recently created
record of that owner, if any. -/
def latest_for (st : StoreState) (owner : User) : Option DemographicData :=
  (st.records.filter (fun r => r.user.pk == owner.pk)).getLast?

/-- Modelled from the spec: the traversal behind history_for — follow
previous references, collecting records newest to oldest; fails with
BrokenChain when a reference resolves to a record of another owner, to no
record at all, or when the fuel (one more than the store size) runs out,
which can only happen when a record is revisited, i.e. on a cycle. -/
def follow (st : StoreState) (owner : User) : Option Nat → Nat → Except StoreError (List DemographicData)
  | none, _ => Except.ok []
  | some _, 0 => Except.error StoreError.BrokenChain
  | some pk, fuel + 1 =>
    match getRecord st pk with
    | none => Except.error StoreError.BrokenChain
    | some r =>
      if r.user.pk = owner.pk then
        match follow st owner r.previous fuel with
        | Except.ok rest => Except.ok (r :: rest)
        | Except.error e => Except.error e
      else Except.error StoreError.BrokenChain

/-- Modelled from the spec: history_for(owner) — records of the owner from
most recent to oldest, following previous references from
latest_for(owner). -/
def history_for (st : StoreState) (owner : User) : Except StoreError (List DemographicData) :=
  follow st owner ((latest_for st owner).map (fun r => r.pk)) (st.records.length + 1)

/-- A sequence of create calls for one owner, each supplying the
then-latest record as previous. -/
def createSeq (st : StoreState) (owner : User) : List Fields → Except StoreError StoreState
  | [] => Except.ok st
  | f :: rest =>
    match create st owner f ((latest_for st owner).map (fun r => r.pk)) with
    | Except.ok (st2, _) => createSeq st2 owner rest
    | Except.error e => Except.error e

/-- The i-th record of a single-owner chain built from the empty store:
primary key and creation instant i, previous reference to record i-1. -/
def chainRec (owner : User) (j : Nat) (f : Fields) : DemographicData :=
  { toFields := f, pk := j, user := owner, created_at := j,
    previous := if j = 0 then none else some (j - 1) }

/-- The records of a single-owner chain, numbering from i. -/
def chainRecords (owner : User) (i : Nat) : List Fields → List DemographicData
  | [] => []
  | f :: rest => chainRec owner i f :: chainRecords owner (i + 1) rest

/-- The store state reached by creating fs in sequence for one owner from
the empty store. -/
def chainState (owner : User) (fs : List Fields) : StoreState :=
  { records := chainRecords owner 0 fs, nextPk := fs.length, clock := fs.length }

/-- The history list returned when traversing a chain from record j:
records j, j-1, ..., 0. -/
def descList (owner : User) (fs : List Fields) : Nat → List DemographicData
  | 0 => [chainRec owner 0 (fs.getD 0 default)]
  | j + 1 => chainRec owner (j + 1) (fs.getD (j + 1) default) :: descList owner fs j

/-- Whether a store operation succeeded. -/
def succeeds (e : Except StoreError (StoreState × Nat)) : Bool :=
  match e with
  | Except.ok _ => true
  | Except.error _ => false

/-- The invariant tying the clock to stored creation instants: every
stored record was created strictly before the present instant. -/
def ClockInv (st : StoreState) : Prop :=
  ∀ r ∈ st.records, r.created_at < st.clock

/-- A record identical but for the internal identities (its own primary
key and its owner's primary key). -/
def setIdentity (d : DemographicData) (p u : Nat) : DemographicData :=
  { d with pk := p, user := { d.user with pk := u } }

/-- The record that `create` persists. -/
def newRecord (st : StoreState) (owner : User) (f : Fields) (prev : Option Nat) : DemographicData :=
  { toFields := f, pk := st.nextPk, user := owner, created_at := st.clock, previous := prev }

deriving instance DecidableEq for Except

/-- The numeric value of a non-empty all-digit character list. -/
def digitsVal (cs : List Char) : Option Nat :=
  if cs = [] then none
  else cs.foldl (fun acc c => match acc with
    | none => none
    | some n => if c.isDigit then some (n * 10 + (c.toNat - 48)) else none) (some 0)

/-- Split a character list at its first dash, when one exists. -/
def splitDash : List Char → Option (List Char × List Char)
  | [] => none
  | c :: rest =>
    if c = '-' then some ([], rest)
    else (splitDash rest).map (fun p => (c :: p.1, p.2))

/-- The numeric range lo-hi denoted by a bracket string of that shape
(none for open-ended brackets such as under 18 or 70 or over). -/
def rangeOf (s : String) : Option (Nat × Nat) :=
  match splitDash s.data with
  | none => none
  | some (a, b) =>
    match digitsVal a, digitsVal b with
    | some x, some y => some (x, y)
    | _, _ => none

/-- Whether a (code, label) pair denotes, consistently on both sides, one
numeric range containing all of a..b. -/
def coversConsistently (p : String × String) (a b : Nat) : Bool :=
  match rangeOf p.1, rangeOf p.2 with
  | some (lo, hi), some (lo2, hi2) =>
    (lo == lo2) && (hi == hi2) && Nat.ble lo a && Nat.ble b hi
  | _, _ => false

/-- A concrete user for witnesses. -/
def sampleUser : User :=
  { pk := 7, uuid := 287454020, username := "a@b.com", given_name := "Ada",
    middle_name := "", family_name := "L" }

/-- A concrete submission all of whose coded fields are catalog codes. -/
def goodFields : Fields :=
  { number_of_children := "2",
    child_birthdays := [{ year := 1990, month := 1, day := 1 },
                        { year := 1992, month := 6, day := 15 }],
    languages_spoken_at_home := "english",
    number_of_guardians := "2",
    number_of_guardians_explanation := "",
    race_identification := "white",
    age := "30-34",
    gender := "f",
    education_level := "bach",
    spouse_education_level := "na",
    annual_income := "50000",
    number_of_books := 10,
    additional_comments := "",
    country := "US",
    state := "MA",
    density := "urban",
    extra := none }

/-- A second valid concrete submission. -/
def goodFields2 : Fields := { goodFields with age := "22-24", gender := "m" }

/-- goodFields with a gender value that is not a code of the gender
catalog. -/
def badFields : Fields := { goodFields with gender := "xx" }

/-- A two-submission sequence for the chain witness. -/
def sampleFs : List Fields := [goodFields, goodFields2]

/-- A concrete stored record. -/
def sampleRecord : DemographicData :=
  { toFields := goodFields, pk := 3, user := sampleUser, created_at := 5, previous := none }

/-- A concrete stored record whose gender code is not in the catalog. -/
def badGenderRecord : DemographicData :=
  { toFields := badFields, pk := 0, user := sampleUser, created_at := 0, previous := none }

/-- A concrete stored record whose age code is 45-59. -/
def sampleAgeRecord : DemographicData :=
  { toFields := { goodFields with age := "45-59" }, pk := 0, user := sampleUser,
    created_at := 0, previous := none }

/-- The record persisted by creating goodFields in the empty store. -/
def sampleCreated : DemographicData :=
  { toFields := goodFields, pk := 0, user := sampleUser, created_at := 0, previous := none }

/-- The store reached by creating goodFields in the empty store. -/
def sampleState1 : StoreState := { records := [sampleCreated], nextPk := 1, clock := 1 }

/-- First record of a concrete two-record cycle: its previous points at
the record created after it (create does not validate previous). -/
def cycleRecA : DemographicData :=
  { toFields := goodFields, pk := 0, user := sampleUser, created_at := 0, previous := some 1 }

/-- Second record of the concrete cycle: its previous points back at the
first, closing the loop A to B to A. -/
def cycleRecB : DemographicData :=
  { toFields := goodFields2, pk := 1, user := sampleUser, created_at := 1, previous := some 0 }

/-- The store after the first create of the cycle construction. -/
def cycleMid : StoreState := { records := [cycleRecA], nextPk := 1, clock := 1 }

/-- The store holding the two-record cycle, as produced by two create
calls from the empty store. -/
def cycleState : StoreState := { records := [cycleRecA, cycleRecB], nextPk := 2, clock := 2 }

/-- A second concrete user, distinct from sampleUser. -/
def otherUser : User :=
  { pk := 8, uuid := 99, username := "c@d.com", given_name := "Bo",
    middle_name := "", family_name := "M" }

/-- A record owned by otherUser. -/
def crossRec : DemographicData :=
  { toFields := goodFields, pk := 0, user := otherUser, created_at := 0, previous := none }

/-- A record of sampleUser whose previous resolves to otherUser's
record. -/
def crossTop : DemographicData :=
  { toFields := goodFields2, pk := 1, user := sampleUser, created_at := 1, previous := some 0 }

/-- A store whose chain for sampleUser crosses into another owner's
record. -/
def crossState : StoreState := { records := [crossRec, crossTop], nextPk := 2, clock := 2 }

/-- A label found by catalog lookup belongs to the labels of the catalog. -/
theorem lookup_mem_snd : ∀ (c : Choices) (v lab : String),
    c.lookup v = some lab → lab ∈ c.map Prod.snd := by
  intro c
  induction c with
  | nil => intro v lab h; simp [List.lookup] at h
  | cons p rest ih =>
    intro v lab h
    obtain ⟨k, b⟩ := p
    rw [List.lookup] at h
    cases hv : (v == k) with
    | true =>
      rw [hv] at h
      simp at h
      subst h
      simp
    | false =>
      rw [hv] at h
      simp only [List.map, List.mem_cons]
      right
      exact ih v lab h

/-- The display accessor either resolves a catalog code to its label or
passes the raw stored value through unchanged. -/
theorem display_dichotomy : ∀ (c : Choices) (v : String),
    (∃ lab, c.lookup v = some lab ∧ getFieldDisplay c v = lab ∧ lab ∈ c.map Prod.snd) ∨
    (c.lookup v = none ∧ getFieldDisplay c v = v) := by
  intro c v
  cases h : c.lookup v with
  | some lab => exact Or.inl ⟨lab, rfl, by rw [getFieldDisplay, h], lookup_mem_snd c v lab h⟩
  | none => exact Or.inr ⟨rfl, by rw [getFieldDisplay, h]⟩

/-- Unfolding of the traversal at a live reference with fuel left. -/
theorem follow_some_succ (st : StoreState) (owner : User) (pk fuel : Nat) :
    follow st owner (some pk) (fuel + 1) =
      match getRecord st pk with
      | none => Except.error StoreError.BrokenChain
      | some r =>
        if r.user.pk = owner.pk then
          match follow st owner r.previous fuel with
          | Except.ok rest => Except.ok (r :: rest)
          | Except.error e => Except.error e
        else Except.error StoreError.BrokenChain := rfl

/-- The traversal of an absent reference is the empty history. -/
theorem follow_none (st : StoreState) (owner : User) :
    ∀ fuel, follow st owner none fuel = Except.ok [] := by
  intro fuel
  cases fuel <;> rfl

theorem chainRecords_length (owner : User) : ∀ (l : List Fields) (i : Nat),
    (chainRecords owner i l).length = l.length := by
  intro l
  induction l with
  | nil => intro i; rfl
  | cons f rest ih => intro i; simp [chainRecords, ih]

theorem chainRecords_append (owner : User) (f : Fields) : ∀ (l : List Fields) (i : Nat),
    chainRecords owner i (l ++ [f]) = chainRecords owner i l ++ [chainRec owner (i + l.length) f] := by
  intro l
  induction l with
  | nil => intro i; simp [chainRecords]
  | cons g rest ih =>
    intro i
    show chainRec owner i g :: chainRecords owner (i + 1) (rest ++ [f]) = _
    rw [ih (i + 1)]
    have h : i + 1 + rest.length = i + (g :: rest).length := by simp; omega
    rw [h]
    rfl

theorem chainRecords_user (owner : User) : ∀ (l : List Fields) (i : Nat) (r : DemographicData),
    r ∈ chainRecords owner i l → r.user = owner := by
  intro l
  induction l with
  | nil => intro i r h; simp [chainRecords] at h
  | cons f rest ih =>
    intro i r h
    rw [chainRecords, List.mem_cons] at h
    cases h with
    | inl h => rw [h]; rfl
    | inr h => exact ih (i + 1) r h

theorem chainRecords_filter (owner : User) (l : List Fields) (i : Nat) :
    (chainRecords owner i l).filter (fun r => r.user.pk == owner.pk) = chainRecords owner i l := by
  rw [List.filter_eq_self]
  intro r hr
  rw [chainRecords_user owner l i r hr]
  simp

theorem chainRecords_getLast (owner : User) : ∀ (l : List Fields) (i : Nat),
    (chainRecords owner i l).getLast? =
      l.getLast?.map (fun f => chainRec owner (i + l.length - 1) f) := by
  intro l
  induction l with
  | nil => intro i; rfl
  | cons f rest ih =>
    intro i
    cases rest with
    | nil => rfl
    | cons g rest2 =>
      show (chainRec owner i f :: chainRec owner (i + 1) g :: chainRecords owner (i + 2) rest2).getLast? = _
      rw [List.getLast?_cons_cons]
      have h2 : (chainRec owner (i + 1) g :: chainRecords owner (i + 2) rest2) =
          chainRecords owner (i + 1) (g :: rest2) := rfl
      rw [h2, ih (i + 1)]
      have h3 : i + 1 + (g :: rest2).length - 1 = i + (f :: g :: rest2).length - 1 := by
        simp
        omega
      rw [h3, List.getLast?_cons_cons]

theorem getq_some : ∀ (l : List Fields) (n : Nat), n < l.length → ∃ a, l.get? n = some a := by
  intro l
  induction l with
  | nil => intro n h; exact absurd h (by simp)
  | cons f rest ih =>
    intro n h
    cases n with
    | zero => exact ⟨f, rfl⟩
    | succ m => exact ih m (Nat.lt_of_succ_lt_succ h)

theorem getD_of_getq : ∀ (l : List Fields) (n : Nat) (d a : Fields),
    l.get? n = some a → l.getD n d = a := by
  intro l
  induction l with
  | nil => intro n d a h; simp [List.get?] at h
  | cons f rest ih =>
    intro n d a h
    cases n with
    | zero =>
      simp [List.get?] at h
      simp [List.getD, h]
    | succ m =>
      exact ih m d a h

theorem chainRecords_find (owner : User) : ∀ (l : List Fields) (i j : Nat), i ≤ j →
    (chainRecords owner i l).find? (fun r => r.pk == j) =
      (l.get? (j - i)).map (chainRec owner j) := by
  intro l
  induction l with
  | nil => intro i j hij; rfl
  | cons f rest ih =>
    intro i j hij
    by_cases hj : j = i
    · subst hj
      rw [chainRecords, List.find?_cons_of_pos _ (by simp [chainRec])]
      simp [Nat.sub_self, List.get?]
    · have hij2 : i + 1 ≤ j := by omega
      rw [chainRecords, List.find?_cons_of_neg _ (by simp [chainRec]; omega)]
      rw [ih (i + 1) j hij2]
      have h3 : j - i = (j - (i + 1)) + 1 := by omega
      rw [h3]
      rfl

theorem latest_chainState (owner : User) (fs : List Fields) :
    latest_for (chainState owner fs) owner =
      fs.getLast?.map (fun f => chainRec owner (fs.length - 1) f) := by
  show ((chainRecords owner 0 fs).filter (fun r => r.user.pk == owner.pk)).getLast? = _
  rw [chainRecords_filter, chainRecords_getLast]
  simp only [Nat.zero_add]

theorem getLast_some : ∀ (l : List Fields) (p : Fields), ∃ g, (p :: l).getLast? = some g := by
  intro l
  induction l with
  | nil => intro p; exact ⟨p, rfl⟩
  | cons q qs ih =>
    intro p
    rw [List.getLast?_cons_cons]
    exact ih q

theorem prevArg_chainState (owner : User) (pre : List Fields) :
    (latest_for (chainState owner pre) owner).map (fun r => r.pk) =
      (if pre.length = 0 then none else some (pre.length - 1)) := by
  rw [latest_chainState]
  cases pre with
  | nil => rfl
  | cons p ps =>
    obtain ⟨g, hg⟩ := getLast_some ps p
    rw [hg]
    rw [if_neg (by simp)]
    rfl

theorem create_error (st : StoreState) (owner : User) (f : Fields) (prev : Option Nat)
    (e : StoreError) (h : validateFields f = Except.error e) :
    create st owner f prev = Except.error e := by
  unfold create
  rw [h]

theorem create_ok (st : StoreState) (owner : User) (f : Fields) (prev : Option Nat)
    (h : validateFields f = Except.ok ()) :
    create st owner f prev =
      Except.ok ({ records := st.records ++ [newRecord st owner f prev],
                   nextPk := st.nextPk + 1, clock := st.clock + 1 }, st.nextPk) := by
  unfold create
  rw [h]
  rfl

theorem create_chainState (owner : User) (pre : List Fields) (f : Fields)
    (hf : validateFields f = Except.ok ()) :
    create (chainState owner pre) owner f
        ((latest_for (chainState owner pre) owner).map (fun r => r.pk)) =
      Except.ok (chainState owner (pre ++ [f]), pre.length) := by
  rw [prevArg_chainState]
  show (match validateFields f with
        | Except.error e => Except.error e
        | Except.ok _ =>
          Except.ok ({ records := (chainState owner pre).records ++
                         [{ toFields := f, pk := (chainState owner pre).nextPk,
                            user := owner, created_at := (chainState owner pre).clock,
                            previous := if pre.length = 0 then none else some (pre.length - 1) }],
                       nextPk := (chainState owner pre).nextPk + 1,
                       clock := (chainState owner pre).clock + 1 }, (chainState owner pre).nextPk))
      = Except.ok (chainState owner (pre ++ [f]), pre.length)
  rw [hf]
  have hrec : ({ toFields := f, pk := (chainState owner pre).nextPk,
                 user := owner, created_at := (chainState owner pre).clock,
                 previous := if pre.length = 0 then none else some (pre.length - 1) } : DemographicData)
      = chainRec owner pre.length f := rfl
  rw [hrec]
  have hst : ({ records := (chainState owner pre).records ++ [chainRec owner pre.length f],
                nextPk := (chainState owner pre).nextPk + 1,
                clock := (chainState owner pre).clock + 1 } : StoreState)
      = chainState owner (pre ++ [f]) := by
    show ({ records := chainRecords owner 0 pre ++ [chainRec owner pre.length f],
            nextPk := pre.length + 1, clock := pre.length + 1 } : StoreState) = _
    have h1 : chainRecords owner 0 (pre ++ [f]) =
        chainRecords owner 0 pre ++ [chainRec owner pre.length f] := by
      rw [chainRecords_append]
      simp only [Nat.zero_add]
    have h2 : (pre ++ [f]).length = pre.length + 1 := by simp
    rw [chainState, h1, h2]
  rw [hst]
  rfl

theorem createSeq_chain (owner : User) : ∀ (fs pre : List Fields),
    (∀ f ∈ fs, validateFields f = Except.ok ()) →
    createSeq (chainState owner pre) owner fs = Except.ok (chainState owner (pre ++ fs)) := by
  intro fs
  induction fs with
  | nil => intro pre h; rw [List.append_nil]; rfl
  | cons f rest ih =>
    intro pre h
    have hf : validateFields f = Except.ok () := h f (by simp)
    show (match create (chainState owner pre) owner f
            ((latest_for (chainState owner pre) owner).map (fun r => r.pk)) with
          | Except.ok (st2, _) => createSeq st2 owner rest
          | Except.error e => Except.error e) = _
    rw [create_chainState owner pre f hf]
    show createSeq (chainState owner (pre ++ [f])) owner rest = _
    rw [ih (pre ++ [f]) (fun g hg => h g (by simp [hg]))]
    rw [List.append_assoc]
    rfl

theorem descList_length (owner : User) (fs : List Fields) :
    ∀ j, (descList owner fs j).length = j + 1 := by
  intro j
  induction j with
  | zero => rfl
  | succ k ih => simp [descList, ih]

theorem descList_created (owner : User) (fs : List Fields) :
    ∀ j r, r ∈ descList owner fs j → r.created_at ≤ j := by
  intro j
  induction j with
  | zero =>
    intro r h
    rw [descList, List.mem_singleton] at h
    subst h
    exact Nat.le_refl _
  | succ k ih =>
    intro r h
    rw [descList, List.mem_cons] at h
    cases h with
    | inl h => subst h; exact Nat.le_refl _
    | inr h => exact Nat.le_succ_of_le (ih r h)

theorem descList_pairwise (owner : User) (fs : List Fields) :
    ∀ j, (descList owner fs j).Pairwise (fun a b => b.created_at < a.created_at) := by
  intro j
  induction j with
  | zero => simp [descList]
  | succ k ih =>
    rw [descList, List.pairwise_cons]
    refine ⟨fun b hb => ?_, ih⟩
    have := descList_created owner fs k b hb
    show b.created_at < k + 1
    omega

theorem descList_getLast (owner : User) (fs : List Fields) :
    ∀ j, (descList owner fs j).getLast? = some (chainRec owner 0 (fs.getD 0 default)) := by
  intro j
  induction j with
  | zero => rfl
  | succ k ih =>
    have hshape : ∃ f2 t, descList owner fs k = chainRec owner k f2 :: t := by
      cases k with
      | zero => exact ⟨fs.getD 0 default, [], rfl⟩
      | succ m => exact ⟨fs.getD (m + 1) default, descList owner fs m, rfl⟩
    obtain ⟨f2, t, ht⟩ := hshape
    rw [descList, ht, List.getLast?_cons_cons, ← ht, ih]

theorem follow_chain (owner : User) (fs : List Fields) : ∀ (j fuel : Nat),
    j < fs.length → j < fuel →
    follow (chainState owner fs) owner (some j) fuel = Except.ok (descList owner fs j) := by
  intro j
  induction j with
  | zero =>
    intro fuel hlen hfuel
    cases fuel with
    | zero => exact absurd hfuel (by omega)
    | succ k =>
      obtain ⟨f0, hf0⟩ := getq_some fs 0 hlen
      have hgr : getRecord (chainState owner fs) 0 = some (chainRec owner 0 f0) := by
        show (chainRecords owner 0 fs).find? (fun r => r.pk == 0) = _
        rw [chainRecords_find owner fs 0 0 (Nat.le_refl 0), Nat.sub_self, hf0]
        rfl
      rw [follow_some_succ, hgr]
      show (if (chainRec owner 0 f0).user.pk = owner.pk then
              match follow (chainState owner fs) owner (chainRec owner 0 f0).previous k with
              | Except.ok rest => Except.ok (chainRec owner 0 f0 :: rest)
              | Except.error e => Except.error e
            else Except.error StoreError.BrokenChain) = Except.ok (descList owner fs 0)
      rw [if_pos (show (chainRec owner 0 f0).user.pk = owner.pk from rfl)]
      have hprev0 : (chainRec owner 0 f0).previous = none := rfl
      rw [hprev0, follow_none]
      have hd : descList owner fs 0 = [chainRec owner 0 f0] := by
        show [chainRec owner 0 (fs.getD 0 default)] = _
        rw [getD_of_getq fs 0 default f0 hf0]
      rw [hd]
  | succ j ih =>
    intro fuel hlen hfuel
    cases fuel with
    | zero => exact absurd hfuel (by omega)
    | succ k =>
      obtain ⟨fj, hfj⟩ := getq_some fs (j + 1) hlen
      have hgr : getRecord (chainState owner fs) (j + 1) = some (chainRec owner (j + 1) fj) := by
        show (chainRecords owner 0 fs).find? (fun r => r.pk == (j + 1)) = _
        rw [chainRecords_find owner fs 0 (j + 1) (Nat.zero_le _), Nat.sub_zero, hfj]
        rfl
      rw [follow_some_succ, hgr]
      show (if (chainRec owner (j + 1) fj).user.pk = owner.pk then
              match follow (chainState owner fs) owner (chainRec owner (j + 1) fj).previous k with
              | Except.ok rest => Except.ok (chainRec owner (j + 1) fj :: rest)
              | Except.error e => Except.error e
            else Except.error StoreError.BrokenChain) = Except.ok (descList owner fs (j + 1))
      rw [if_pos (show (chainRec owner (j + 1) fj).user.pk = owner.pk from rfl)]
      have hprev : (chainRec owner (j + 1) fj).previous = some j := by
        show (if j + 1 = 0 then none else some (j + 1 - 1)) = some j
        rw [if_neg (Nat.succ_ne_zero j)]
        exact congrArg some (Nat.succ_sub_one j)
      rw [hprev, ih k (by omega) (by omega)]
      have hd : descList owner fs (j + 1) = chainRec owner (j + 1) fj :: descList owner fs j := by
        show chainRec owner (j + 1) (fs.getD (j + 1) default) :: _ = _
        rw [getD_of_getq fs (j + 1) default fj hfj]
      rw [hd]

theorem follow_mem (st : StoreState) (owner : User) :
    ∀ (fuel : Nat) (cur : Option Nat) (hs : List DemographicData),
    follow st owner cur fuel = Except.ok hs → ∀ r ∈ hs, r ∈ st.records := by
  intro fuel
  induction fuel with
  | zero =>
    intro cur hs h r hr
    cases cur with
    | none =>
      have h2 : Except.ok ([] : List DemographicData) = Except.ok hs := h
      have h3 : hs = [] := (Except.ok.inj h2).symm
      subst h3
      exact absurd hr (by simp)
    | some pk2 => exact Except.noConfusion h
  | succ k ih =>
    intro cur hs h r hr
    cases cur with
    | none =>
      have h2 : Except.ok ([] : List DemographicData) = Except.ok hs := h
      have h3 : hs = [] := (Except.ok.inj h2).symm
      subst h3
      exact absurd hr (by simp)
    | some pk2 =>
      rw [follow_some_succ] at h
      cases hget : getRecord st pk2 with
      | none =>
        simp only [hget] at h
        exact Except.noConfusion h
      | some r2 =>
        simp only [hget] at h
        by_cases howner : r2.user.pk = owner.pk
        · rw [if_pos howner] at h
          cases hrec : follow st owner r2.previous k with
          | ok rest =>
            simp only [hrec] at h
            have h4 : r2 :: rest = hs := Except.ok.inj h
            subst h4
            rcases List.mem_cons.mp hr with h5 | h5
            · subst h5
              exact List.mem_of_find?_eq_some hget
            · exact ih r2.previous rest hrec r h5
          | error e =>
            simp only [hrec] at h
            exact Except.noConfusion h
        · rw [if_neg howner] at h
          exact Except.noConfusion h

theorem chainRecords_map_fields (owner : User) : ∀ (l : List Fields) (i : Nat),
    (chainRecords owner i l).map (fun r => r.toFields) = l := by
  intro l
  induction l with
  | nil => intro i; rfl
  | cons f rest ih =>
    intro i
    show (chainRec owner i f).toFields :: (chainRecords owner (i + 1) rest).map (fun r => r.toFields)
        = f :: rest
    rw [ih (i + 1)]
    rfl

theorem take_succ_getq : ∀ (l : List Fields) (n : Nat) (a : Fields),
    l.get? n = some a → l.take (n + 1) = l.take n ++ [a] := by
  intro l
  induction l with
  | nil => intro n a h; simp [List.get?] at h
  | cons f rest ih =>
    intro n a h
    cases n with
    | zero =>
      simp [List.get?] at h
      subst h
      rfl
    | succ m =>
      have h2 := ih m a h
      show f :: rest.take (m + 1) = (f :: rest.take m) ++ [a]
      rw [h2]
      rfl

theorem descList_reverse (owner : User) (fs : List Fields) : ∀ j, j < fs.length →
    (descList owner fs j).reverse = chainRecords owner 0 (fs.take (j + 1)) := by
  intro j
  induction j with
  | zero =>
    intro h
    obtain ⟨f0, hf0⟩ := getq_some fs 0 h
    have ht : fs.take 1 = [f0] := by
      rw [take_succ_getq fs 0 f0 hf0]
      rfl
    rw [ht]
    show [chainRec owner 0 (fs.getD 0 default)].reverse = [chainRec owner 0 f0]
    rw [getD_of_getq fs 0 default f0 hf0]
    rfl
  | succ j ih =>
    intro h
    obtain ⟨fj, hfj⟩ := getq_some fs (j + 1) h
    show (chainRec owner (j + 1) (fs.getD (j + 1) default) :: descList owner fs j).reverse
        = chainRecords owner 0 (fs.take (j + 1 + 1))
    rw [take_succ_getq fs (j + 1) fj hfj, chainRecords_append]
    have hlen : (fs.take (j + 1)).length = j + 1 := by
      rw [List.length_take]
      omega
    rw [hlen]
    simp only [Nat.zero_add]
    rw [List.reverse_cons, ih (by omega), getD_of_getq fs (j + 1) default fj hfj]

theorem descList_full (owner : User) (fs : List Fields) (h : fs ≠ []) :
    descList owner fs (fs.length - 1) = (chainRecords owner 0 fs).reverse := by
  have h1 : fs.length - 1 < fs.length := by
    cases fs with
    | nil => exact absurd rfl h
    | cons g gs => simp only [List.length_cons]; omega
  have h2 := descList_reverse owner fs (fs.length - 1) h1
  have h3 : fs.length - 1 + 1 = fs.length := by
    cases fs with
    | nil => exact absurd rfl h
    | cons g gs => simp only [List.length_cons]; omega
  rw [h3, List.take_length] at h2
  rw [← h2, List.reverse_reverse]

theorem get_map_iso : ∀ (l : List PDate) (i : Nat),
    (l.map PDate.isoformat).get? i = (l.get? i).map PDate.isoformat := by
  intro l
  induction l with
  | nil => intro i; cases i <;> rfl
  | cons d rest ih =>
    intro i
    cases i with
    | zero => rfl
    | succ m => exact ih m

theorem validateList_shape : ∀ (l : List (String × Choices × String)),
    validateList l = Except.ok () ∨
    ∃ fn v, validateList l = Except.error (StoreError.InvalidFieldValue fn v) := by
  intro l
  induction l with
  | nil => exact Or.inl rfl
  | cons t rest ih =>
    obtain ⟨n, c, v⟩ := t
    by_cases h : (c.lookup v).isSome = true
    · rw [validateList, if_pos h]
      exact ih
    · rw [validateList, if_neg h]
      exact Or.inr ⟨n, v, rfl⟩

theorem validateList_ok : ∀ (l : List (String × Choices × String)),
    validateList l = Except.ok () → ∀ t ∈ l, (t.2.1.lookup t.2.2).isSome = true := by
  intro l
  induction l with
  | nil => intro _ t ht; exact absurd ht (by simp)
  | cons u rest ih =>
    intro h t ht
    obtain ⟨n, c, v⟩ := u
    by_cases h2 : (c.lookup v).isSome = true
    · rw [validateList, if_pos h2] at h
      rcases List.mem_cons.mp ht with h3 | h3
      · subst h3; exact h2
      · exact ih h t h3
    · rw [validateList, if_neg h2] at h
      exact Except.noConfusion h

/-- Counterexample to claim C1: on a stored record whose gender code is
the out-of-catalog value xx, to_display renders the raw stored code xx
itself — a string that is not a label of the gender catalog — and does
not fail. -/
theorem claim1_cx :
    badGenderRecord.gender = "xx" ∧
    (DemographicData.to_display badGenderRecord).lookup "gender" =
      some (DisplayValue.str "xx") ∧
    "xx" ∉ GENDER_CHOICES.map Prod.snd := by
  decide

/-- Claim C1, amended: for every record and every coded field, the
per-field display accessor used by to_display returns the catalog label
when the stored code is present in the catalog (a label of that catalog),
and otherwise returns the raw stored code unchanged; it never fails. -/
theorem claim1_display_amended :
    (∀ (c : Choices) (v : String),
      (∃ lab, c.lookup v = some lab ∧ getFieldDisplay c v = lab ∧ lab ∈ c.map Prod.snd) ∨
      (c.lookup v = none ∧ getFieldDisplay c v = v)) ∧
    (∀ d : DemographicData,
      (DemographicData.to_display d).lookup "number_of_children" =
        some (DisplayValue.str (getFieldDisplay NO_CHILDREN_CHOICES d.number_of_children)) ∧
      (DemographicData.to_display d).lookup "number_of_guardians" =
        some (DisplayValue.str (getFieldDisplay GUARDIAN_CHOICES d.number_of_guardians)) ∧
      (DemographicData.to_display d).lookup "race_identification" =
        some (DisplayValue.str (getFieldDisplay RACE_CHOICES d.race_identification)) ∧
      (DemographicData.to_display d).lookup "age" =
        some (DisplayValue.str (getFieldDisplay AGE_CHOICES d.age)) ∧
      (DemographicData.to_display d).lookup "gender" =
        some (DisplayValue.str (getFieldDisplay GENDER_CHOICES d.gender)) ∧
      (DemographicData.to_display d).lookup "education_level" =
        some (DisplayValue.str (getFieldDisplay EDUCATION_CHOICES d.education_level)) ∧
      (DemographicData.to_display d).lookup "spouse_education_level" =
        some (DisplayValue.str (getFieldDisplay SPOUSE_EDUCATION_CHOICES d.spouse_education_level)) ∧
      (DemographicData.to_display d).lookup "annual_income" =
        some (DisplayValue.str (getFieldDisplay INCOME_CHOICES d.annual_income)) ∧
      (DemographicData.to_display d).lookup "density" =
        some (DisplayValue.str (getFieldDisplay DENSITY_CHOICES d.density))) :=
  ⟨display_dichotomy, fun _ => ⟨rfl, rfl, rfl, rfl, rfl, rfl, rfl, rfl, rfl⟩⟩

/-- Claim C2: create rejects an assignment whose gender is not a code of
the gender catalog — in particular the value xx — with InvalidFieldValue
(and, the result being an error, persists nothing); and whenever create
succeeds, every coded field of the assignment is a code of its catalog. -/
theorem claim2_create_validates :
    (∀ (st : StoreState) (owner : User) (f : Fields) (prev : Option Nat),
      f.gender = "xx" →
      ∃ fn v, create st owner f prev = Except.error (StoreError.InvalidFieldValue fn v)) ∧
    (∀ (st : StoreState) (owner : User) (f : Fields) (prev : Option Nat),
      succeeds (create st owner f prev) = true →
      ∀ t ∈ codedFields f, (t.2.1.lookup t.2.2).isSome = true) := by
  constructor
  · intro st owner f prev hg
    rcases validateList_shape (codedFields f) with h | ⟨fn, v, h⟩
    · exfalso
      have h2 := validateList_ok (codedFields f) h
        ("gender", GENDER_CHOICES, f.gender) (by simp [codedFields])
      rw [hg] at h2
      exact absurd h2 (by decide)
    · exact ⟨fn, v, create_error st owner f prev _ h⟩
  · intro st owner f prev h
    cases hv : validateFields f with
    | ok u => exact validateList_ok (codedFields f) hv
    | error e =>
      exfalso
      have h2 : succeeds (create st owner f prev) = false := by
        rw [create_error st owner f prev e hv]
        rfl
      rw [h] at h2
      exact Bool.noConfusion h2

/-- Witness for claim C2 at concrete inputs: creating badFields (gender
xx) in the empty store fails with InvalidFieldValue, and creating
goodFields succeeds with every coded field in its catalog. -/
theorem claim2_witness :
    badFields.gender = "xx" ∧
    (∃ fn v, create emptyStore sampleUser badFields none =
      Except.error (StoreError.InvalidFieldValue fn v)) ∧
    succeeds (create emptyStore sampleUser goodFields none) = true ∧
    (∀ t ∈ codedFields goodFields, (t.2.1.lookup t.2.2).isSome = true) :=
  ⟨rfl, claim2_create_validates.1 emptyStore sampleUser badFields none rfl, rfl,
   claim2_create_validates.2 emptyStore sampleUser goodFields none rfl⟩

/-- Counterexample to claim C3: the annual income catalog has 24 codes,
not 23 as claimed. -/
theorem claim3_cx : INCOME_CHOICES.length = 24 ∧ INCOME_CHOICES.length ≠ 23 := by
  decide

/-- Claim C3, amended: the catalogs have exactly the stated sizes, with
annual income at 24 codes (including the prefer-not-to-answer sentinel)
instead of 23: race 8, gender 4, education 7, spouse-education 8,
number of children the codes 0..10 plus more-than-10, age 11 ranges,
guardians 4 codes including varies, density 3 codes. -/
theorem claim3_catalog_sizes :
    RACE_CHOICES.length = 8 ∧
    GENDER_CHOICES.length = 4 ∧
    EDUCATION_CHOICES.length = 7 ∧
    SPOUSE_EDUCATION_CHOICES.length = 8 ∧
    NO_CHILDREN_CHOICES.map Prod.fst =
      ["0", "1", "2", "3", "4", "5", "6", "7", "8", "9", "10", ">10"] ∧
    AGE_CHOICES.length = 11 ∧
    GUARDIAN_CHOICES.length = 4 ∧
    ("varies", "varies") ∈ GUARDIAN_CHOICES ∧
    INCOME_CHOICES.length = 24 ∧
    ("na", "prefer not to answer") ∈ INCOME_CHOICES ∧
    DENSITY_CHOICES.length = 3 := by
  decide

/-- Claim C4: creating N valid records in sequence for one owner (each
supplying the then-latest record as previous) yields a store on which
history_for returns exactly those N records — the stored records
themselves, newest to oldest, carrying the submitted field assignments —
strictly descending by creation time, the last of which has no previous;
and the traversal fails with BrokenChain when a reference resolves to a
record of a different owner, and on any cycle: for any set of same-owner
records each of whose previous references resolves back into the set,
traversal from any of them fails with BrokenChain. -/
theorem claim4_history_chain (owner : User) (fs : List Fields)
    (hval : ∀ f ∈ fs, validateFields f = Except.ok ()) :
    (∃ st, createSeq emptyStore owner fs = Except.ok st ∧
      ∃ hs, history_for st owner = Except.ok hs ∧
        hs = st.records.reverse ∧
        hs.map (fun r => r.toFields) = fs.reverse ∧
        hs.length = fs.length ∧
        hs.Pairwise (fun a b => b.created_at < a.created_at) ∧
        (∀ r, hs.getLast? = some r → r.previous = none)) ∧
    (∀ (st : StoreState) (pk2 : Nat) (r : DemographicData) (fuel : Nat),
      getRecord st pk2 = some r → r.user.pk ≠ owner.pk →
      follow st owner (some pk2) (fuel + 1) = Except.error StoreError.BrokenChain) ∧
    (∀ (st : StoreState) (S : List Nat),
      (∀ pk2 ∈ S, ∃ r, getRecord st pk2 = some r ∧ r.user.pk = owner.pk ∧
        ∃ pk3, r.previous = some pk3 ∧ pk3 ∈ S) →
      ∀ (fuel : Nat), ∀ pk2 ∈ S,
        follow st owner (some pk2) fuel = Except.error StoreError.BrokenChain) := by
  refine ⟨?_, ?_, ?_⟩
  · have hcs : createSeq emptyStore owner fs = Except.ok (chainState owner fs) :=
      createSeq_chain owner fs [] hval
    refine ⟨chainState owner fs, hcs, ?_⟩
    cases fs with
    | nil =>
      refine ⟨[], rfl, rfl, rfl, rfl, List.Pairwise.nil, ?_⟩
      intro r h
      exact absurd h (by simp)
    | cons g gs =>
      have hlat : (latest_for (chainState owner (g :: gs)) owner).map (fun r => r.pk) =
          some ((g :: gs).length - 1) := by
        rw [prevArg_chainState]
        rw [if_neg (by simp)]
      have hreclen : (chainState owner (g :: gs)).records.length = (g :: gs).length :=
        chainRecords_length owner (g :: gs) 0
      have hhist : history_for (chainState owner (g :: gs)) owner =
          Except.ok (descList owner (g :: gs) ((g :: gs).length - 1)) := by
        rw [history_for, hlat, hreclen]
        exact follow_chain owner (g :: gs) ((g :: gs).length - 1) ((g :: gs).length + 1)
          (by simp only [List.length_cons]; omega) (by simp only [List.length_cons]; omega)
      have hrev : descList owner (g :: gs) ((g :: gs).length - 1) =
          (chainRecords owner 0 (g :: gs)).reverse :=
        descList_full owner (g :: gs) (by simp)
      refine ⟨descList owner (g :: gs) ((g :: gs).length - 1), hhist, hrev, ?_, ?_,
        descList_pairwise owner (g :: gs) _, ?_⟩
      · rw [hrev, List.map_reverse, chainRecords_map_fields]
      · rw [descList_length]
        simp only [List.length_cons]
        omega
      · intro r h
        rw [descList_getLast] at h
        have h2 := Option.some.inj h
        rw [← h2]
        rfl
  · intro st pk2 r fuel hget hne
    rw [follow_some_succ, hget]
    show (if r.user.pk = owner.pk then
            match follow st owner r.previous fuel with
            | Except.ok rest => Except.ok (r :: rest)
            | Except.error e => Except.error e
          else Except.error StoreError.BrokenChain) = Except.error StoreError.BrokenChain
    rw [if_neg hne]
  · intro st S hS fuel
    induction fuel with
    | zero =>
      intro pk2 hpk2
      rfl
    | succ k ih =>
      intro pk2 hpk2
      obtain ⟨r, hget, howner, pk3, hprev, hpk3⟩ := hS pk2 hpk2
      rw [follow_some_succ, hget]
      show (if r.user.pk = owner.pk then
              match follow st owner r.previous k with
              | Except.ok rest => Except.ok (r :: rest)
              | Except.error e => Except.error e
            else Except.error StoreError.BrokenChain) = Except.error StoreError.BrokenChain
      rw [if_pos howner, hprev, ih pk3 hpk3]

/-- Witness for claim C4 at concrete inputs: a two-record chain from the
empty store; a two-record cycle A to B to A built by two create calls, on
which history_for fails with BrokenChain; and a chain crossing into
another owner's record, on which the traversal fails with BrokenChain. -/
theorem claim4_witness :
    (∀ f ∈ sampleFs, validateFields f = Except.ok ()) ∧
    (∃ st, createSeq emptyStore sampleUser sampleFs = Except.ok st ∧
      ∃ hs, history_for st sampleUser = Except.ok hs ∧
        hs = st.records.reverse ∧
        hs.map (fun r => r.toFields) = sampleFs.reverse ∧
        hs.length = sampleFs.length ∧
        hs.Pairwise (fun a b => b.created_at < a.created_at) ∧
        (∀ r, hs.getLast? = some r → r.previous = none)) ∧
    create emptyStore sampleUser goodFields (some 1) = Except.ok (cycleMid, 0) ∧
    create cycleMid sampleUser goodFields2 (some 0) = Except.ok (cycleState, 1) ∧
    history_for cycleState sampleUser = Except.error StoreError.BrokenChain ∧
    follow crossState sampleUser (some 0) 1 = Except.error StoreError.BrokenChain ∧
    history_for crossState sampleUser = Except.error StoreError.BrokenChain := by
  refine ⟨by decide, (claim4_history_chain sampleUser sampleFs (by decide)).1,
    rfl, rfl, ?_, ?_, rfl⟩
  · have hS : ∀ pk2 ∈ [0, 1], ∃ r, getRecord cycleState pk2 = some r ∧
        r.user.pk = sampleUser.pk ∧ ∃ pk3, r.previous = some pk3 ∧ pk3 ∈ [0, 1] := by
      intro pk2 hpk2
      rcases List.mem_cons.mp hpk2 with h | h
      · subst h
        exact ⟨cycleRecA, rfl, rfl, 1, rfl, by simp⟩
      · rw [List.mem_singleton] at h
        subst h
        exact ⟨cycleRecB, rfl, rfl, 0, rfl, by simp⟩
    show follow cycleState sampleUser (some 1) 3 = Except.error StoreError.BrokenChain
    exact (claim4_history_chain sampleUser sampleFs (by decide)).2.2 cycleState [0, 1] hS 3 1
      (by simp)
  · exact (claim4_history_chain sampleUser sampleFs (by decide)).2.1 crossState 0 crossRec 0
      rfl (by decide)

/-- Claim C5: project (to_display) is deterministic and idempotent —
projecting the same unmodified record twice yields identical output
mappings, to_display being a pure function of the record value. -/
theorem claim5_project_deterministic :
    (∀ d : DemographicData, DemographicData.to_display d = DemographicData.to_display d) ∧
    (∀ d1 d2 : DemographicData, d1 = d2 →
      DemographicData.to_display d1 = DemographicData.to_display d2) :=
  ⟨fun _ => rfl, fun d1 d2 h => by rw [h]⟩

/-- Witness for claim C5 at a concrete record. -/
theorem claim5_witness :
    DemographicData.to_display sampleRecord = DemographicData.to_display sampleRecord :=
  claim5_project_deterministic.2 sampleRecord sampleRecord rfl

/-- Claim C6: the user entry of the projection is the hex form of the
owner's UUID (32 lowercase hex digits), and no internal identity is
visible in the output — the projection is invariant under changing the
record's and the owner's primary keys. -/
theorem claim6_owner_external_id :
    (∀ d : DemographicData,
      (DemographicData.to_display d).lookup "user" =
        some (DisplayValue.str (uuidHex d.user.uuid))) ∧
    (∀ (d : DemographicData) (p u : Nat),
      DemographicData.to_display (setIdentity d p u) = DemographicData.to_display d) ∧
    uuidHex 1 = "00000000000000000000000000000001" :=
  ⟨fun _ => rfl, fun _ _ _ => rfl, by decide⟩

/-- Claim C7: the projection renders child_birthdays as the ISO date
strings of the stored dates, of the same length and in the same order;
in particular [1990-01-01, 1992-06-15] renders as the corresponding
string list. -/
theorem claim7_birthdays :
    (∀ d : DemographicData,
      (DemographicData.to_display d).lookup "child_birthdays" =
        some (DisplayValue.strList (d.child_birthdays.map PDate.isoformat)) ∧
      (d.child_birthdays.map PDate.isoformat).length = d.child_birthdays.length ∧
      (∀ i, (d.child_birthdays.map PDate.isoformat).get? i =
        (d.child_birthdays.get? i).map PDate.isoformat)) ∧
    ([{ year := 1990, month := 1, day := 1 },
      { year := 1992, month := 6, day := 15 }] : List PDate).map PDate.isoformat =
      ["1990-01-01", "1992-06-15"] :=
  ⟨fun d => ⟨rfl, List.length_map _ _, fun i => get_map_iso d.child_birthdays i⟩, by decide⟩

/-- Claim C8: created_at is assigned exactly once, at insertion — create
extends the stored records by one new record stamped with the current
clock and leaves every existing record untouched, later creations
receiving strictly later stamps — and the history traversal only returns
stored records unchanged. -/
theorem claim8_created_at :
    ClockInv emptyStore ∧
    (∀ (st : StoreState) (owner : User) (f : Fields) (prev : Option Nat)
        (st2 : StoreState) (pk2 : Nat),
      create st owner f prev = Except.ok (st2, pk2) →
      ∃ r2, st2.records = st.records ++ [r2] ∧ r2.created_at = st.clock ∧
        (ClockInv st → ClockInv st2 ∧ ∀ r ∈ st.records, r.created_at < r2.created_at)) ∧
    (∀ (st : StoreState) (owner : User) (hs : List DemographicData),
      history_for st owner = Except.ok hs → ∀ r ∈ hs, r ∈ st.records) := by
  refine ⟨?_, ?_, ?_⟩
  · intro r hr
    exact absurd hr (by simp [emptyStore])
  · intro st owner f prev st2 pk2 h
    cases hv : validateFields f with
    | error e =>
      rw [create_error st owner f prev e hv] at h
      exact Except.noConfusion h
    | ok u =>
      cases u
      rw [create_ok st owner f prev hv] at h
      have h3 := Except.ok.inj h
      have h4 : ({ records := st.records ++ [newRecord st owner f prev],
                   nextPk := st.nextPk + 1, clock := st.clock + 1 } : StoreState) = st2 :=
        congrArg Prod.fst h3
      subst h4
      refine ⟨newRecord st owner f prev, rfl, rfl, ?_⟩
      intro hinv
      constructor
      · intro r hr
        have hr2 : r ∈ st.records ++ [newRecord st owner f prev] := hr
        show r.created_at < st.clock + 1
        rcases List.mem_append.mp hr2 with h6 | h6
        · have := hinv r h6
          omega
        · rw [List.mem_singleton] at h6
          subst h6
          show st.clock < st.clock + 1
          omega
      · intro r hr
        exact hinv r hr
  · intro st owner hs h r hr
    exact follow_mem st owner _ _ hs h r hr

/-- Witness for claim C8 at a concrete create from the empty store. -/
theorem claim8_witness :
    create emptyStore sampleUser goodFields none = Except.ok (sampleState1, 0) ∧
    (∃ r2, sampleState1.records = emptyStore.records ++ [r2] ∧
      r2.created_at = emptyStore.clock ∧
      (ClockInv emptyStore → ClockInv sampleState1 ∧
        ∀ r ∈ emptyStore.records, r.created_at < r2.created_at)) :=
  ⟨rfl, claim8_created_at.2.1 emptyStore sampleUser goodFields none sampleState1 0 rfl⟩

/-- Claim C9: in the age catalog the code 45-59 maps to the label 45-49,
so a record storing 45-59 is rendered as 45-49; the bracket denoted by
the label differs from the bracket denoted by the code (upper bound 49
versus 59), and no pair of the catalog consistently covers ages 45
through 59 on both its code and label sides. -/
theorem claim9_age_mislabel :
    AGE_CHOICES.lookup "45-59" = some "45-49" ∧
    (∀ d : DemographicData, d.age = "45-59" →
      (DemographicData.to_display d).lookup "age" = some (DisplayValue.str "45-49")) ∧
    rangeOf "45-59" = some (45, 59) ∧
    rangeOf "45-49" = some (45, 49) ∧
    (45, 59) ≠ ((45, 49) : Nat × Nat) ∧
    (AGE_CHOICES.all (fun p => !(coversConsistently p 45 59))) = true := by
  refine ⟨by decide, ?_, by decide, by decide, by decide, by decide⟩
  intro d h
  have h2 : (DemographicData.to_display d).lookup "age" =
      some (DisplayValue.str (getFieldDisplay AGE_CHOICES d.age)) := rfl
  rw [h2, h]
  decide

/-- Witness for claim C9 at a concrete record storing age 45-59. -/
theorem claim9_witness :
    sampleAgeRecord.age = "45-59" ∧
    (DemographicData.to_display sampleAgeRecord).lookup "age" =
      some (DisplayValue.str "45-49") :=
  ⟨rfl, claim9_age_mislabel.2.1 sampleAgeRecord rfl⟩

/-- Claim C10: the spouse-education catalog is exactly the education
catalog extended by the single additional code na (label not applicable -
no spouse or partner), pair for pair and in order, so every education
code is rendered with the same label by both fields. -/
theorem claim10_spouse_education_extends :
    SPOUSE_EDUCATION_CHOICES =
      EDUCATION_CHOICES ++ [("na", "not applicable - no spouse or partner")] ∧
    EDUCATION_CHOICES.length = 7 ∧
    (EDUCATION_CHOICES.all
      (fun p => SPOUSE_EDUCATION_CHOICES.lookup p.1 == some p.2)) = true ∧
    (EDUCATION_CHOICES.all
      (fun p => getFieldDisplay SPOUSE_EDUCATION_CHOICES p.1 ==
        getFieldDisplay EDUCATION_CHOICES p.1)) = true := by
  refine ⟨rfl, rfl, ?_, ?_⟩ <;> decide

end Lookit
